import Mathlib

/-!
Shallow embedding of the income-prediction notebook
(src/实验五城乡收入预测实验完整代码.ipynb).

The notebook has two parts:
* a synthetic-data generator (cell 3): 100 cities x 5 years (2018..2022),
  a region label per city, eight covariates per row drawn from seeded
  numpy distributions, and two derived income targets;
* an evaluation pipeline (cells 5, 7, 11, 13): an 80/20 train/test split
  with split seed 0, `StandardScaler` fitted on the training partition,
  several regressors trained and scored (RMSE, R^2), a per-region
  modelling loop with fresh unseeded splits, and a policy counterfactual
  that adds 0.2 to `policy_index` on a copy of the test covariates.

Randomness is embedded by an explicit draw stream `d : ℕ → ℚ`:
* `np.random.normal(loc, scale)` at stream position `n` is embedded as
  `loc + scale * d n` (the stream value plays the role of a standard
  normal variate; it ranges over all of ℚ);
* `np.random.uniform(a, b)` at stream position `n` is embedded as
  `a + (b - a) * d n`, and the numpy contract that the draw lies in the
  half-open interval [a, b) corresponds to the hypothesis
  `0 ≤ d n ∧ d n < 1` (`UnifOK` below states it for exactly the stream
  positions that the generator consumes with `np.random.uniform`);
* each generated row consumes ten stream values, in the order of the
  source lines of the loop body, so row number k (k = 5 * cityIdx +
  yearOffset, rows being produced city-major exactly as the two nested
  loops do) uses positions 10*k .. 10*k+9;
* the 100 region labels are drawn by `np.random.choice` before the row
  loop; the weighted categorical draw is abstracted as a function
  `regionOf : ℕ → Region` giving each city index its label (drawn once
  per city, which is the property the claims use).

All numeric fields use ℚ: every arithmetic operation performed by the
generator and by the metric formulas is field arithmetic, exactly
mirrored here.  The only irrational operation in the pipeline is the
square root inside RMSE and inside `StandardScaler`'s division by the
standard deviation; it is abstracted as a function parameter
`sq : ℚ → ℚ` (the claims under study never depend on its values, only
on which data flows into it).
-/

/-- Region labels; the source strings are 东部 (East), 中部 (Central),
西部 (West), drawn with weights 0.4 / 0.3 / 0.3. -/
inductive Region where
  | East : Region
  | Central : Region
  | West : Region
deriving DecidableEq, Repr

/-- One generated row (one city-year record), with the 13 columns of the
notebook's dataframe. -/
structure Record where
  city : ℕ
  year : ℕ
  region : Region
  gdp_pc : ℚ
  net_access : ℚ
  edu_exp : ℚ
  med_exp : ℚ
  urban_ratio : ℚ
  policy_index : ℚ
  infra_score : ℚ
  unemp_rate : ℚ
  rural_income : ℚ
  urban_income : ℚ
deriving DecidableEq, Repr

/-- numpy's `np.clip(x, lo, hi)`, i.e. `min(hi, max(x, lo))`. -/
def npClip (x lo hi : ℚ) : ℚ := min hi (max x lo)

/-- Mean of `gdp_pc`: `80000 if region == '东部' else 50000 if region == '中部'
else 30000`. -/
def gdpMean (rg : Region) : ℚ :=
  if rg = Region.East then 80000 else if rg = Region.Central then 50000 else 30000

/-- Mean of `net_access`: `0.9 if region == '东部' else 0.75`. -/
def netMean (rg : Region) : ℚ := if rg = Region.East then 0.9 else 0.75

/-- Mean of `urban_ratio`: `0.7 if region == '东部' else 0.6`. -/
def urbanMean (rg : Region) : ℚ := if rg = Region.East then 0.7 else 0.6

/-- The body of the generation loop: the row for a given city index,
year, and region, drawing from stream `d` starting at position `b`.
Draw order follows the source lines exactly: gdp_pc (b), net_access
(b+1), edu_exp (b+2), med_exp (b+3), urban_ratio (b+4), policy_index
(b+5), the infra_score noise (b+6), unemp_rate (b+7), the rural_income
uniform factor (b+8), the urban_income uniform factor (b+9). -/
def mkRecord (city year : ℕ) (rg : Region) (d : ℕ → ℚ) (b : ℕ) : Record where
  city := city
  year := year
  region := rg
  gdp_pc := gdpMean rg + 5000 * d b
  net_access := npClip (netMean rg + 0.1 * d (b + 1)) 0.5 1
  edu_exp := 15000 + 2000 * d (b + 2)
  med_exp := 10000 + 1500 * d (b + 3)
  urban_ratio := npClip (urbanMean rg + 0.1 * d (b + 4)) 0.3 0.95
  policy_index := d (b + 5)
  infra_score := npClip (netMean rg + 0.1 * d (b + 1)) 0.5 1 * 50 +
    npClip (urbanMean rg + 0.1 * d (b + 4)) 0.3 0.95 * 30 + 5 * d (b + 6)
  unemp_rate := npClip (0.08 + 0.03 * d (b + 7)) 0.03 0.15
  rural_income := (gdpMean rg + 5000 * d b) * (0.3 + 0.2 * d (b + 8)) +
    d (b + 5) * 5000 - npClip (0.08 + 0.03 * d (b + 7)) 0.03 0.15 * 2000
  urban_income := (gdpMean rg + 5000 * d b) * (0.6 + 0.3 * d (b + 9))

/-- The generation loop of cell 3: cities `City_1 .. City_100` (indexed
0..99 here), years 2018..2022 (inner loop), each city's region drawn
once before the loop (`regionOf`), each row consuming ten draws of the
global stream in source order. -/
def generateTable (regionOf : ℕ → Region) (d : ℕ → ℚ) : List Record :=
  (List.range 100).flatMap fun i =>
    (List.range 5).map fun j => mkRecord i (2018 + j) (regionOf i) d (10 * (5 * i + j))

/-- The numpy contract for `np.random.uniform`: the generator consumes a
uniform draw exactly at the stream positions that are 5, 8 or 9 mod 10
(policy_index and the two income factors), and such a draw lies in
[0, 1). -/
def UnifOK (d : ℕ → ℚ) : Prop :=
  ∀ n : ℕ, n % 10 = 5 ∨ n % 10 = 8 ∨ n % 10 = 9 → 0 ≤ d n ∧ d n < 1

lemma npClip_le (x lo hi : ℚ) : npClip x lo hi ≤ hi := min_le_left _ _

lemma le_npClip (x lo hi : ℚ) (h : lo ≤ hi) : lo ≤ npClip x lo hi :=
  le_min h (le_max_right _ _)

lemma mem_generateTable {regionOf : ℕ → Region} {d : ℕ → ℚ} {r : Record} :
    r ∈ generateTable regionOf d ↔
      ∃ i, i < 100 ∧ ∃ j, j < 5 ∧ r = mkRecord i (2018 + j) (regionOf i) d (10 * (5 * i + j)) := by
  simp only [generateTable, List.mem_flatMap, List.mem_map, List.mem_range]
  constructor
  · rintro ⟨i, hi, j, hj, rfl⟩
    exact ⟨i, hi, j, hj, rfl⟩
  · rintro ⟨i, hi, j, hj, rfl⟩
    exact ⟨i, hi, j, hj, rfl⟩

lemma generateTable_length (regionOf : ℕ → Region) (d : ℕ → ℚ) :
    (generateTable regionOf d).length = 500 := by
  simp [generateTable, Function.comp_def, List.sum_replicate]

/-- C4: every generated row keeps its clipped covariates inside the
declared bounds: `net_access ∈ [0.5, 1]`, `urban_ratio ∈ [0.3, 0.95]`,
`unemp_rate ∈ [0.03, 0.15]`, for any values of the underlying normal
draws. -/
theorem c4_clipped_covariates_in_bounds (regionOf : ℕ → Region) (d : ℕ → ℚ) :
    ∀ r ∈ generateTable regionOf d,
      (0.5 ≤ r.net_access ∧ r.net_access ≤ 1) ∧
      (0.3 ≤ r.urban_ratio ∧ r.urban_ratio ≤ 0.95) ∧
      (0.03 ≤ r.unemp_rate ∧ r.unemp_rate ≤ 0.15) := by
  intro r hr
  rcases mem_generateTable.mp hr with ⟨i, hi, j, hj, rfl⟩
  refine ⟨⟨le_npClip _ _ _ (by norm_num), npClip_le _ _ _⟩,
    ⟨le_npClip _ _ _ (by norm_num), npClip_le _ _ _⟩,
    ⟨le_npClip _ _ _ (by norm_num), npClip_le _ _ _⟩⟩

/-- A fixed draw stream (all zeros) used to instantiate theorems with
hypotheses on concrete inputs. -/
def d0 : ℕ → ℚ := fun _ => 0

/-- A fixed region assignment (everything East) used for instantiation. -/
def rf0 : ℕ → Region := fun _ => Region.East

/-- The first row the generator produces under `rf0` and `d0`. -/
def rec0 : Record := mkRecord 0 2018 Region.East d0 0

lemma rec0_mem : rec0 ∈ generateTable rf0 d0 := by
  refine mem_generateTable.mpr ⟨0, by norm_num, 0, by norm_num, ?_⟩
  rfl

theorem c4_witness :
    rec0 ∈ generateTable rf0 d0 ∧
      (0.5 ≤ rec0.net_access ∧ rec0.net_access ≤ 1) ∧
      (0.3 ≤ rec0.urban_ratio ∧ rec0.urban_ratio ≤ 0.95) ∧
      (0.03 ≤ rec0.unemp_rate ∧ rec0.unemp_rate ≤ 0.15) :=
  ⟨rec0_mem, c4_clipped_covariates_in_bounds rf0 d0 rec0 rec0_mem⟩

lemma flatMap_range_single {α : Type} (n i : ℕ) (hi : i < n) (f : ℕ → List α)
    (hf : ∀ j, j < n → j ≠ i → f j = []) : (List.range n).flatMap f = f i := by
  induction n with
  | zero => omega
  | succ m ih =>
    rw [List.range_succ, List.flatMap_append, List.flatMap_singleton]
    rcases Nat.lt_succ_iff_lt_or_eq.mp hi with h | h
    · rw [ih h fun j hj hne => hf j (Nat.lt_succ_of_lt hj) hne,
        hf m (Nat.lt_succ_self m) (by omega), List.append_nil]
    · subst h
      have hz : (List.range i).flatMap f = [] :=
        List.flatMap_eq_nil_iff.mpr fun x hx =>
          hf x (Nat.lt_succ_of_lt (List.mem_range.mp hx))
            (Nat.ne_of_lt (List.mem_range.mp hx))
      rw [hz, List.nil_append]

lemma generateTable_filter_city (regionOf : ℕ → Region) (d : ℕ → ℚ) {i : ℕ}
    (hi : i < 100) :
    ((generateTable regionOf d).filter fun r => r.city = i) =
      (List.range 5).map fun j => mkRecord i (2018 + j) (regionOf i) d (10 * (5 * i + j)) := by
  unfold generateTable
  rw [List.filter_flatMap]
  rw [flatMap_range_single 100 i hi _ ?hz]
  case hz =>
    intro j hj hne
    apply List.filter_eq_nil_iff.mpr
    intro r hr
    rcases List.mem_map.mp hr with ⟨j', hj', rfl⟩
    simp [mkRecord, hne]
  apply List.filter_eq_self.mpr
  intro r hr
  rcases List.mem_map.mp hr with ⟨j, hj, rfl⟩
  simp [mkRecord]

/-- C1: the generated table has exactly 500 rows; for each of the 100
city indices, the rows of that city are exactly 5, carrying the 5
distinct years 2018..2022, and all of them carry the single region label
drawn once for that city (`regionOf i`). -/
theorem c1_table_shape (regionOf : ℕ → Region) (d : ℕ → ℚ) :
    (generateTable regionOf d).length = 500 ∧
    ∀ i, i < 100 →
      (((generateTable regionOf d).filter fun r => r.city = i).map Record.year =
          [2018, 2019, 2020, 2021, 2022] ∧
        ∀ r ∈ (generateTable regionOf d).filter fun r => r.city = i,
          r.region = regionOf i) := by
  refine ⟨generateTable_length _ _, fun i hi => ?_⟩
  rw [generateTable_filter_city regionOf d hi]
  constructor
  · rw [List.map_map]; rfl
  · intro r hr
    rcases List.mem_map.mp hr with ⟨j, hj, rfl⟩
    rfl

theorem c1_witness :
    ((generateTable rf0 d0).filter fun r => r.city = 0).map Record.year =
        [2018, 2019, 2020, 2021, 2022] ∧
      ∀ r ∈ (generateTable rf0 d0).filter fun r => r.city = 0,
        r.region = rf0 0 :=
  (c1_table_shape rf0 d0).2 0 (by norm_num)

/-- C5 (counterexample): `infra_score` is not an independent draw from a
normal distribution whose mean depends only on the row's region: there
is no mean function and standard deviation expressing it as
`mean(region) + sd * (its own stream draw)`, because it also depends on
the draws behind `net_access` and `urban_ratio`. -/
theorem c5_counterexample :
    ¬ ∃ (μ : Region → ℚ) (σ : ℚ), ∀ (rg : Region) (d : ℕ → ℚ),
        (mkRecord 0 2018 rg d 0).infra_score = μ rg + σ * d 6 := by
  rintro ⟨μ, σ, h⟩
  have h1 := h Region.East fun _ => 0
  have h2 := h Region.East fun n => if n = 1 then 100 else 0
  norm_num [mkRecord, npClip, netMean, urbanMean] at h1 h2
  linarith

/-- C5 (amended): per generated row, the covariates follow the source
formulas: `gdp_pc`, `net_access`, `edu_exp`, `med_exp`, `urban_ratio`,
`unemp_rate` are normal draws (`gdp_pc` with region mean 80000 / 50000 /
30000 for East / Central / West and standard deviation 5000;
`net_access` and `urban_ratio` with region-dependent means, then
clipped; `edu_exp`, `med_exp`, `unemp_rate` with fixed means), while
`policy_index` is a uniform draw on [0, 1) and `infra_score` is derived
from the row's `net_access` and `urban_ratio` plus noise — each from its
own fresh stream position of row k. -/
theorem c5_amended_covariate_distributions (regionOf : ℕ → Region) (d : ℕ → ℚ) :
    ∀ r ∈ generateTable regionOf d, ∃ k, k < 500 ∧
      r.gdp_pc = gdpMean r.region + 5000 * d (10 * k) ∧
      gdpMean Region.East = 80000 ∧ gdpMean Region.Central = 50000 ∧
      gdpMean Region.West = 30000 ∧
      r.net_access = npClip (netMean r.region + 0.1 * d (10 * k + 1)) 0.5 1 ∧
      r.edu_exp = 15000 + 2000 * d (10 * k + 2) ∧
      r.med_exp = 10000 + 1500 * d (10 * k + 3) ∧
      r.urban_ratio = npClip (urbanMean r.region + 0.1 * d (10 * k + 4)) 0.3 0.95 ∧
      r.policy_index = d (10 * k + 5) ∧
      r.infra_score = r.net_access * 50 + r.urban_ratio * 30 + 5 * d (10 * k + 6) ∧
      r.unemp_rate = npClip (0.08 + 0.03 * d (10 * k + 7)) 0.03 0.15 := by
  intro r hr
  rcases mem_generateTable.mp hr with ⟨i, hi, j, hj, rfl⟩
  exact ⟨5 * i + j, by omega, rfl, rfl, rfl, rfl, rfl, rfl, rfl, rfl, rfl, rfl, rfl⟩

theorem c5_witness :
    ∃ k, k < 500 ∧
      rec0.gdp_pc = gdpMean rec0.region + 5000 * d0 (10 * k) ∧
      gdpMean Region.East = 80000 ∧ gdpMean Region.Central = 50000 ∧
      gdpMean Region.West = 30000 ∧
      rec0.net_access = npClip (netMean rec0.region + 0.1 * d0 (10 * k + 1)) 0.5 1 ∧
      rec0.edu_exp = 15000 + 2000 * d0 (10 * k + 2) ∧
      rec0.med_exp = 10000 + 1500 * d0 (10 * k + 3) ∧
      rec0.urban_ratio = npClip (urbanMean rec0.region + 0.1 * d0 (10 * k + 4)) 0.3 0.95 ∧
      rec0.policy_index = d0 (10 * k + 5) ∧
      rec0.infra_score = rec0.net_access * 50 + rec0.urban_ratio * 30 + 5 * d0 (10 * k + 6) ∧
      rec0.unemp_rate = npClip (0.08 + 0.03 * d0 (10 * k + 7)) 0.03 0.15 :=
  c5_amended_covariate_distributions rf0 d0 rec0 rec0_mem

lemma unifOK_d0 : UnifOK d0 := fun n _ => ⟨le_rfl, by norm_num [d0]⟩

/-- C6: per generated row, `rural_income = gdp_pc * u1 + 5000 *
policy_index - 2000 * unemp_rate` and `urban_income = gdp_pc * u2`,
where `u1 = 0.3 + 0.2 * d (10k+8)` and `u2 = 0.6 + 0.3 * d (10k+9)` are
uniform factors in [0.3, 0.5) resp. [0.6, 0.9) under the uniform
contract, drawn at row k's own stream positions (k is determined by the
row's city and year, so the factors are fresh for each row). -/
theorem c6_income_formulas (regionOf : ℕ → Region) (d : ℕ → ℚ) (hd : UnifOK d) :
    ∀ r ∈ generateTable regionOf d, ∃ k, k < 500 ∧
      r.city = k / 5 ∧ r.year = 2018 + k % 5 ∧
      r.rural_income =
        r.gdp_pc * (0.3 + 0.2 * d (10 * k + 8)) + r.policy_index * 5000 -
          r.unemp_rate * 2000 ∧
      r.urban_income = r.gdp_pc * (0.6 + 0.3 * d (10 * k + 9)) ∧
      0.3 ≤ 0.3 + 0.2 * d (10 * k + 8) ∧ 0.3 + 0.2 * d (10 * k + 8) < 0.5 ∧
      0.6 ≤ 0.6 + 0.3 * d (10 * k + 9) ∧ 0.6 + 0.3 * d (10 * k + 9) < 0.9 := by
  intro r hr
  rcases mem_generateTable.mp hr with ⟨i, hi, j, hj, rfl⟩
  have h8 := hd (10 * (5 * i + j) + 8) (by omega)
  have h9 := hd (10 * (5 * i + j) + 9) (by omega)
  refine ⟨5 * i + j, by omega, ?_, ?_, rfl, rfl, ?_, ?_, ?_, ?_⟩
  · show i = (5 * i + j) / 5
    omega
  · show 2018 + j = 2018 + (5 * i + j) % 5
    omega
  · linarith [h8.1]
  · linarith [h8.2]
  · linarith [h9.1]
  · linarith [h9.2]

theorem c6_witness :
    ∃ k, k < 500 ∧
      rec0.city = k / 5 ∧ rec0.year = 2018 + k % 5 ∧
      rec0.rural_income =
        rec0.gdp_pc * (0.3 + 0.2 * d0 (10 * k + 8)) + rec0.policy_index * 5000 -
          rec0.unemp_rate * 2000 ∧
      rec0.urban_income = rec0.gdp_pc * (0.6 + 0.3 * d0 (10 * k + 9)) ∧
      0.3 ≤ 0.3 + 0.2 * d0 (10 * k + 8) ∧ 0.3 + 0.2 * d0 (10 * k + 8) < 0.5 ∧
      0.6 ≤ 0.6 + 0.3 * d0 (10 * k + 9) ∧ 0.6 + 0.3 * d0 (10 * k + 9) < 0.9 :=
  c6_income_formulas rf0 d0 unifOK_d0 rec0 rec0_mem

/-- C7: per generated row, `infra_score = 50 * net_access + 30 *
urban_ratio + e` with `e` the row's own fresh noise draw (mean 0,
standard deviation 5, i.e. `5 * d (10k+6)`), and the `net_access` /
`urban_ratio` appearing in the formula are the row's already-clipped
values. -/
theorem c7_infra_uses_clipped_values (regionOf : ℕ → Region) (d : ℕ → ℚ) :
    ∀ r ∈ generateTable regionOf d, ∃ k, k < 500 ∧
      r.infra_score = r.net_access * 50 + r.urban_ratio * 30 + 5 * d (10 * k + 6) ∧
      r.net_access = npClip (netMean r.region + 0.1 * d (10 * k + 1)) 0.5 1 ∧
      r.urban_ratio = npClip (urbanMean r.region + 0.1 * d (10 * k + 4)) 0.3 0.95 := by
  intro r hr
  rcases mem_generateTable.mp hr with ⟨i, hi, j, hj, rfl⟩
  exact ⟨5 * i + j, by omega, rfl, rfl, rfl⟩

theorem c7_witness :
    ∃ k, k < 500 ∧
      rec0.infra_score =
        rec0.net_access * 50 + rec0.urban_ratio * 30 + 5 * d0 (10 * k + 6) ∧
      rec0.net_access = npClip (netMean rec0.region + 0.1 * d0 (10 * k + 1)) 0.5 1 ∧
      rec0.urban_ratio = npClip (urbanMean rec0.region + 0.1 * d0 (10 * k + 4)) 0.3 0.95 :=
  c7_infra_uses_clipped_values rf0 d0 rec0 rec0_mem

/-!
Evaluator embedding (cells 5, 7, 11, 13).

Covariate rows are vectors `Fin 8 → ℚ`, columns in the source order
`['gdp_pc', 'net_access', 'edu_exp', 'med_exp', 'urban_ratio',
'policy_index', 'infra_score', 'unemp_rate']` (so `policy_index` is
column 5).

`train_test_split(..., test_size=0.2, random_state=s)` shuffles the row
indices with seed `s` and takes the first ceil(0.2 * n) shuffled indices
as the test partition and the rest as the training partition; the seeded
shuffle is embedded as an explicit index list `perm` (the same `perm`
models the same seed).  The library model fits (`Ridge`,
`RandomForestRegressor`) are deterministic functions of their inputs —
the forest additionally of the global random state — and are embedded as
function parameters bundled in `MLCtx`, together with the square root
`sq` used by RMSE and by the scaler's standard deviation.
-/

/-- The covariate vector of a record, in the column order of `X`. -/
def Record.cov (r : Record) : Fin 8 → ℚ :=
  ![r.gdp_pc, r.net_access, r.edu_exp, r.med_exp, r.urban_ratio,
    r.policy_index, r.infra_score, r.unemp_rate]

/-- The supervised pairs (X row, y value) of the table: `X = df[cols]`,
`y = df['rural_income']`, rows kept aligned. -/
def dataPairs (table : List Record) : List ((Fin 8 → ℚ) × ℚ) :=
  table.map fun r => (r.cov, r.rural_income)

/-- sklearn `train_test_split` with `test_size=0.2`: the shuffled index
list `perm` determines the split — its first ceil(n / 5) indices form
the test partition, the remaining ones the training partition.  Returns
(train, test) in that order. -/
def train_test_split {α : Type} (perm : List ℕ) (l : List α) : List α × List α :=
  let nTest := (l.length + 4) / 5
  ((perm.drop nTest).filterMap fun i => l[i]?,
    (perm.take nTest).filterMap fun i => l[i]?)

/-- The parameters `StandardScaler` fits: per-column mean and (biased)
variance; its scale is the square root of the variance, so the fitted
state is determined by these two. -/
structure Scaler where
  mean : Fin 8 → ℚ
  var : Fin 8 → ℚ
deriving DecidableEq

/-- Mean of a list of rationals (`np.mean`; 0 on the empty list, as a
division by zero). -/
def meanQ (l : List ℚ) : ℚ := l.sum / l.length

/-- Per-column mean over a list of covariate rows. -/
def colMean (rows : List (Fin 8 → ℚ)) (j : Fin 8) : ℚ :=
  meanQ (rows.map fun v => v j)

/-- Per-column biased variance over a list of covariate rows. -/
def colVar (rows : List (Fin 8 → ℚ)) (j : Fin 8) : ℚ :=
  meanQ (rows.map fun v => (v j - colMean rows j) ^ 2)

/-- `StandardScaler().fit(rows)`: record the per-column mean and
variance of `rows` (and nothing else). -/
def fitScaler (rows : List (Fin 8 → ℚ)) : Scaler :=
  { mean := colMean rows, var := colVar rows }

/-- `scaler.transform` on one row: subtract the fitted mean and divide
by the fitted scale (the square root `sq` of the fitted variance). -/
def Scaler.transform (sq : ℚ → ℚ) (s : Scaler) (v : Fin 8 → ℚ) : Fin 8 → ℚ :=
  fun j => (v j - s.mean j) / sq (s.var j)

/-- sklearn `r2_score(yTrue, yPred) = 1 - SSres / SStot`. -/
def r2_score (yTrue yPred : List ℚ) : ℚ :=
  1 - ((yTrue.zip yPred).map fun p => (p.1 - p.2) ^ 2).sum /
    ((yTrue.map fun y => (y - meanQ yTrue) ^ 2).sum)

/-- The deterministic library routines the evaluator calls, abstracted
as pure functions: the square root (for RMSE and the scaler's scale),
the `Ridge()` fit (a deterministic function of the scaled training
pairs), and the `RandomForestRegressor()` fit (a deterministic function
of its training pairs and of the global random state it consumes,
abstracted as a ℕ token). -/
structure MLCtx where
  sq : ℚ → ℚ
  ridgeFit : List ((Fin 8 → ℚ) × ℚ) → (Fin 8 → ℚ) → ℚ
  rfFit : ℕ → List ((Fin 8 → ℚ) × ℚ) → (Fin 8 → ℚ) → ℚ

/-- Training covariate rows: `X_train` of cell 5. -/
def X_train_of (table : List Record) (perm : List ℕ) : List (Fin 8 → ℚ) :=
  (train_test_split perm (dataPairs table)).1.map Prod.fst

/-- Training targets: `y_train` of cell 5. -/
def y_train_of (table : List Record) (perm : List ℕ) : List ℚ :=
  (train_test_split perm (dataPairs table)).1.map Prod.snd

/-- Test covariate rows: `X_test` of cell 5. -/
def X_test_of (table : List Record) (perm : List ℕ) : List (Fin 8 → ℚ) :=
  (train_test_split perm (dataPairs table)).2.map Prod.fst

/-- Test targets: `y_test` of cell 5. -/
def y_test_of (table : List Record) (perm : List ℕ) : List ℚ :=
  (train_test_split perm (dataPairs table)).2.map Prod.snd

/-- The scaler of cell 5: fitted with `scaler.fit_transform(X_train)`,
i.e. on the training partition only. -/
def scaler_of (table : List Record) (perm : List ℕ) : Scaler :=
  fitScaler (X_train_of table perm)

/-- `X_train_scaled = scaler.fit_transform(X_train)`. -/
def X_train_scaled_of (sq : ℚ → ℚ) (table : List Record) (perm : List ℕ) :
    List (Fin 8 → ℚ) :=
  (X_train_of table perm).map ((scaler_of table perm).transform sq)

/-- `X_test_scaled = scaler.transform(X_test)` — the same fitted scaler. -/
def X_test_scaled_of (sq : ℚ → ℚ) (table : List Record) (perm : List ℕ) :
    List (Fin 8 → ℚ) :=
  (X_test_of table perm).map ((scaler_of table perm).transform sq)

/-- `train_and_evaluate(Ridge(), ...)` of cell 7: fit on the scaled
training data, predict on the scaled test data, report
(RMSE, R^2) on the held-out targets. -/
def ridge_metrics_of (ctx : MLCtx) (table : List Record) (perm : List ℕ) : ℚ × ℚ :=
  let model := ctx.ridgeFit ((X_train_scaled_of ctx.sq table perm).zip (y_train_of table perm))
  let y_pred := (X_test_scaled_of ctx.sq table perm).map model
  (ctx.sq (meanQ (((y_test_of table perm).zip y_pred).map fun p => (p.1 - p.2) ^ 2)),
    r2_score (y_test_of table perm) y_pred)

/-- The regional-heterogeneity loop of cell 11: for each distinct region
(in order of first appearance), take that region's rows, split them
80/20 with a fresh unseeded shuffle (`regPerm k` for the k-th region),
fit a fresh forest on the training part, and report the region together
with its R^2 on the held-out part. -/
def regional_report (ctx : MLCtx) (table : List Record) (regPerm : ℕ → List ℕ)
    (rfTok : ℕ → ℕ) : List (Region × ℚ) :=
  ((table.map Record.region).dedup).enum.map fun kr =>
    let sub := table.filter fun r => r.region = kr.2
    let split := train_test_split (regPerm kr.1) (dataPairs sub)
    let model := ctx.rfFit (rfTok kr.1) split.1
    (kr.2, r2_score (split.2.map Prod.snd) (split.2.map fun p => model p.1))

/-- `X_sim['policy_index'] += 0.2` applied to a copy of one test row:
column 5 is incremented by 0.2, all other columns are untouched. -/
def perturbPolicy (v : Fin 8 → ℚ) : Fin 8 → ℚ :=
  Function.update v 5 (v 5 + 0.2)

/-- `X_sim = X_test.copy(); X_sim['policy_index'] += 0.2` of cell 13:
a new table derived from the test covariates. -/
def X_sim_of (table : List Record) (perm : List ℕ) : List (Fin 8 → ℚ) :=
  (X_test_of table perm).map perturbPolicy

/-- `X_sim_scaled = scaler.transform(X_sim)`: the perturbed rows go
through the scaler fitted in cell 5 (on the training partition); no
scaler is refit. -/
def X_sim_scaled_of (sq : ℚ → ℚ) (table : List Record) (perm : List ℕ) :
    List (Fin 8 → ℚ) :=
  (X_sim_of table perm).map ((scaler_of table perm).transform sq)

/-- Cell 13's reported number: a fresh forest fit on the scaled training
data, and the mean of (prediction after − prediction before) over the
test rows. -/
def policy_delta_of (ctx : MLCtx) (table : List Record) (perm : List ℕ)
    (tok : ℕ) : ℚ :=
  let model_final := ctx.rfFit tok ((X_train_scaled_of ctx.sq table perm).zip (y_train_of table perm))
  meanQ (List.zipWith (fun a b => a - b)
    ((X_sim_scaled_of ctx.sq table perm).map model_final)
    ((X_test_scaled_of ctx.sq table perm).map model_final))

/-- Everything one run of the notebook reports (restricted to the steps
the claims are about). -/
structure RunReport where
  ridge_rmse : ℚ
  ridge_r2 : ℚ
  regional : List (Region × ℚ)
  delta_mean : ℚ
deriving DecidableEq

/-- One end-to-end run: generation (seeded: `regionOf` and `d` are what
seed 42 determines), the seeded 80/20 split (`splitPerm` is what split
seed 0 determines), scaling, Ridge evaluation, then the unseeded steps
(regional loop and forest fits), whose extra randomness is `regPerm` /
`rfTok`. -/
def runPipeline (ctx : MLCtx) (regionOf : ℕ → Region) (d : ℕ → ℚ)
    (splitPerm : List ℕ) (regPerm : ℕ → List ℕ) (rfTok : ℕ → ℕ) : RunReport :=
  let table := generateTable regionOf d
  { ridge_rmse := (ridge_metrics_of ctx table splitPerm).1
    ridge_r2 := (ridge_metrics_of ctx table splitPerm).2
    regional := regional_report ctx table regPerm rfTok
    delta_mean := policy_delta_of ctx table splitPerm (rfTok 100) }

lemma mem_split_train {α : Type} {perm : List ℕ} {l : List α} {x : α}
    (h : x ∈ (train_test_split perm l).1) : x ∈ l := by
  rcases List.mem_filterMap.mp h with ⟨i, hi, hsome⟩
  exact List.getElem?_mem hsome

lemma mem_split_test {α : Type} {perm : List ℕ} {l : List α} {x : α}
    (h : x ∈ (train_test_split perm l).2) : x ∈ l := by
  rcases List.mem_filterMap.mp h with ⟨i, hi, hsome⟩
  exact List.getElem?_mem hsome

/-- C2: the fitted scaler is a function of the training partition alone:
two runs whose splits produce the same list of training rows fit
identical scaler parameters, whatever their test rows are; and the one
scaler fitted on the training partition is the one applied to both the
training and the test partitions. -/
theorem c2_scaler_from_train_only (t1 t2 : List Record) (p1 p2 : List ℕ) (sq : ℚ → ℚ)
    (h : X_train_of t1 p1 = X_train_of t2 p2) :
    scaler_of t1 p1 = scaler_of t2 p2 ∧
      X_train_scaled_of sq t1 p1 =
        (X_train_of t1 p1).map ((scaler_of t1 p1).transform sq) ∧
      X_test_scaled_of sq t1 p1 =
        (X_test_of t1 p1).map ((scaler_of t1 p1).transform sq) := by
  refine ⟨?_, rfl, rfl⟩
  unfold scaler_of
  rw [h]

/-- A second row, used to build small concrete tables. -/
def recA : Record := mkRecord 1 2019 Region.Central d0 10

/-- A third row, differing from `recA`. -/
def recB : Record := mkRecord 2 2020 Region.West d0 20

/-- A two-row table whose split under `pW` has test row `recA` and
training row `rec0`. -/
def tA : List Record := [recA, rec0]

/-- A second two-row table with the same training row but a different
test row. -/
def tB : List Record := [recB, rec0]

/-- A tiny index permutation for two-row tables: test gets index 0,
training gets index 1. -/
def pW : List ℕ := [0, 1]

theorem c2_witness :
    X_train_of tA pW = X_train_of tB pW ∧ X_test_of tA pW ≠ X_test_of tB pW ∧
      scaler_of tA pW = scaler_of tB pW := by
  refine ⟨rfl, ?_, (c2_scaler_from_train_only tA tB pW pW id rfl).1⟩
  show ¬([recA.cov] = [recB.cov])
  intro h
  have h0 : recA.cov = recB.cov := by
    have h' := congrArg (fun l : List (Fin 8 → ℚ) => l[0]?) h
    simpa using h'
  have h1 := congrFun h0 0
  have hC : gdpMean Region.Central = 50000 := rfl
  have hW : gdpMean Region.West = 30000 := rfl
  simp only [recA, recB, mkRecord, Record.cov, d0, Matrix.cons_val_zero] at h1
  rw [hC, hW] at h1
  norm_num at h1

/-- C3: the policy counterfactual table is the test table with exactly
0.2 added to `policy_index` (column 5) in every row and every other
column unchanged; the test table itself stays exactly what the split
produced (no mutation), and the perturbed table is transformed with the
scaler fitted on the training partition — no scaler is refit. -/
theorem c3_policy_counterfactual (sq : ℚ → ℚ) (table : List Record) (perm : List ℕ) :
    (∀ i : ℕ, (X_sim_of table perm)[i]? =
        Option.map perturbPolicy (X_test_of table perm)[i]?) ∧
    (∀ v : Fin 8 → ℚ, ∀ j : Fin 8,
        (j = 5 → perturbPolicy v j = v j + 0.2) ∧ (j ≠ 5 → perturbPolicy v j = v j)) ∧
    X_test_of table perm = (train_test_split perm (dataPairs table)).2.map Prod.fst ∧
    X_sim_scaled_of sq table perm =
      (X_sim_of table perm).map
        (Scaler.transform sq (fitScaler (X_train_of table perm))) := by
  refine ⟨?_, ?_, rfl, rfl⟩
  · intro i
    simp [X_sim_of]
  · intro v j
    constructor
    · rintro rfl
      simp [perturbPolicy]
    · intro hj
      simp [perturbPolicy, Function.update_noteq hj]

theorem c3_witness :
    (X_sim_of tA pW)[0]? = Option.map perturbPolicy (X_test_of tA pW)[0]? ∧
      perturbPolicy rec0.cov 5 = rec0.cov 5 + 0.2 ∧
      perturbPolicy rec0.cov 2 = rec0.cov 2 := by
  obtain ⟨h1, h2, h3, h4⟩ := c3_policy_counterfactual id tA pW
  exact ⟨h1 0, (h2 rec0.cov 5).1 rfl, (h2 rec0.cov 2).2 (by decide)⟩

/-- C8: with the generation randomness (seed 42) and the split
permutation (split seed 0) held fixed, the reported Ridge RMSE and R^2
are identical across runs — they do not depend on the unseeded
randomness (the regional-loop shuffles and the forest fits), which is
exactly the part the guarantee excludes. -/
theorem c8_seeded_ridge_deterministic (ctx : MLCtx) (regionOf : ℕ → Region)
    (d : ℕ → ℚ) (splitPerm : List ℕ) (regPerm1 regPerm2 : ℕ → List ℕ)
    (rfTok1 rfTok2 : ℕ → ℕ) :
    (runPipeline ctx regionOf d splitPerm regPerm1 rfTok1).ridge_rmse =
        (runPipeline ctx regionOf d splitPerm regPerm2 rfTok2).ridge_rmse ∧
      (runPipeline ctx regionOf d splitPerm regPerm1 rfTok1).ridge_r2 =
        (runPipeline ctx regionOf d splitPerm regPerm2 rfTok2).ridge_r2 :=
  ⟨rfl, rfl⟩

/-- C10: every generated `policy_index` is a uniform draw in [0, 1)
(never region-conditioned, never clipped), so every perturbed
`policy_index` in the counterfactual table lies in [0.2, 1.2). -/
theorem c10_policy_index_ranges (regionOf : ℕ → Region) (d : ℕ → ℚ) (hd : UnifOK d) :
    (∀ r ∈ generateTable regionOf d,
        r.policy_index = d (10 * (5 * r.city + (r.year - 2018)) + 5) ∧
        0 ≤ r.policy_index ∧ r.policy_index < 1) ∧
    ∀ perm : List ℕ, ∀ v ∈ X_sim_of (generateTable regionOf d) perm,
      0.2 ≤ v 5 ∧ v 5 < 1.2 := by
  have hpol : ∀ r ∈ generateTable regionOf d,
      r.policy_index = d (10 * (5 * r.city + (r.year - 2018)) + 5) ∧
      0 ≤ r.policy_index ∧ r.policy_index < 1 := by
    intro r hr
    rcases mem_generateTable.mp hr with ⟨i, hi, j, hj, rfl⟩
    have hb := hd (10 * (5 * i + j) + 5) (by omega)
    refine ⟨?_, hb.1, hb.2⟩
    show d (10 * (5 * i + j) + 5) = d (10 * (5 * i + (2018 + j - 2018)) + 5)
    norm_num
  refine ⟨hpol, ?_⟩
  intro perm v hv
  rcases List.mem_map.mp hv with ⟨w, hw, rfl⟩
  rcases List.mem_map.mp hw with ⟨pr, hpr, rfl⟩
  rcases List.mem_map.mp (mem_split_test hpr) with ⟨r, hrt, rfl⟩
  have h5 : perturbPolicy (r.cov, r.rural_income).1 5 = r.policy_index + 0.2 := by
    show Function.update r.cov 5 (r.cov 5 + 0.2) 5 = r.policy_index + 0.2
    rw [Function.update_same]
    rfl
  rw [h5]
  have hb := (hpol r hrt).2
  constructor
  · linarith [hb.1]
  · linarith [hb.2]

lemma generateTable_getElem_zero (regionOf : ℕ → Region) (d : ℕ → ℚ) :
    (generateTable regionOf d)[0]? = some (mkRecord 0 2018 (regionOf 0) d 0) := by
  have h : generateTable regionOf d =
      ((List.range 5).map fun j => mkRecord 0 (2018 + j) (regionOf 0) d (10 * (5 * 0 + j))) ++
        ((List.range 99).map Nat.succ).flatMap (fun i =>
          (List.range 5).map fun j => mkRecord i (2018 + j) (regionOf i) d (10 * (5 * i + j))) := by
    rw [generateTable, show (100 : ℕ) = 99 + 1 from rfl, List.range_succ_eq_map,
      List.flatMap_cons]
  rw [h, List.getElem?_append_left (by simp), List.getElem?_map,
    List.getElem?_range (by norm_num)]
  norm_num

lemma X_test_of_perm0 (regionOf : ℕ → Region) (d : ℕ → ℚ) :
    X_test_of (generateTable regionOf d) [0] = [(mkRecord 0 2018 (regionOf 0) d 0).cov] := by
  have hlen : (dataPairs (generateTable regionOf d)).length = 500 := by
    simp [dataPairs, generateTable_length]
  have hget : (dataPairs (generateTable regionOf d))[0]? =
      some ((mkRecord 0 2018 (regionOf 0) d 0).cov,
        (mkRecord 0 2018 (regionOf 0) d 0).rural_income) := by
    unfold dataPairs
    rw [List.getElem?_map, generateTable_getElem_zero]
    rfl
  unfold X_test_of train_test_split
  rw [hlen]
  norm_num
  simp [hget]

theorem c10_witness :
    UnifOK d0 ∧
      (rec0.policy_index = d0 (10 * (5 * rec0.city + (rec0.year - 2018)) + 5) ∧
        0 ≤ rec0.policy_index ∧ rec0.policy_index < 1) ∧
      (0.2 ≤ perturbPolicy rec0.cov 5 ∧ perturbPolicy rec0.cov 5 < 1.2) := by
  obtain ⟨h1, h2⟩ := c10_policy_index_ranges rf0 d0 unifOK_d0
  refine ⟨unifOK_d0, h1 rec0 rec0_mem, h2 [0] (perturbPolicy rec0.cov) ?_⟩
  rw [show X_sim_of (generateTable rf0 d0) [0] = [perturbPolicy rec0.cov] from ?_]
  · exact List.mem_singleton.mpr rfl
  · unfold X_sim_of
    rw [X_test_of_perm0]
    rfl

lemma filterMap_getElem_length {α : Type} (l : List α) (idxs : List ℕ)
    (h : ∀ i ∈ idxs, i < l.length) :
    (idxs.filterMap fun i => l[i]?).length = idxs.length := by
  induction idxs with
  | nil => rfl
  | cons a as ih =>
    have ha : a < l.length := h a (List.mem_cons_self a as)
    rw [List.filterMap_cons, List.getElem?_eq_getElem ha]
    simp only [List.length_cons]
    rw [ih fun i hi => h i (List.mem_cons_of_mem a hi)]

lemma enum_getElem {α : Type} (l : List α) (k : ℕ) :
    l.enum[k]? = l[k]?.map fun a => (k, a) := by
  show (l.enumFrom 0)[k]? = _
  rw [List.getElem?_enumFrom]
  simp

/-- C9: for the k-th distinct region of the table (order of first
appearance, as `df['region'].unique()` lists them), the regional loop
splits only that region's rows with its own fresh shuffle, fits a fresh
forest on the training part alone (every training pair — and every test
pair — comes from a row of that region), and the k-th reported entry is
that region paired with the forest's R^2 on the held-out part; when the
fresh shuffle is a permutation of the subset's indices the split is
80/20 (ceil-20% test, the rest train). -/
theorem c9_regional_models (ctx : MLCtx) (table : List Record)
    (regPerm : ℕ → List ℕ) (rfTok : ℕ → ℕ) (k : ℕ) (rg : Region)
    (hrg : ((table.map Record.region).dedup)[k]? = some rg) :
    (∀ pr ∈ (train_test_split (regPerm k)
        (dataPairs (table.filter fun r => r.region = rg))).1,
        ∃ r ∈ table, r.region = rg ∧ pr = (r.cov, r.rural_income)) ∧
    (∀ pr ∈ (train_test_split (regPerm k)
        (dataPairs (table.filter fun r => r.region = rg))).2,
        ∃ r ∈ table, r.region = rg ∧ pr = (r.cov, r.rural_income)) ∧
    (regional_report ctx table regPerm rfTok)[k]? = some (rg,
      r2_score
        ((train_test_split (regPerm k)
          (dataPairs (table.filter fun r => r.region = rg))).2.map Prod.snd)
        ((train_test_split (regPerm k)
          (dataPairs (table.filter fun r => r.region = rg))).2.map fun p =>
            ctx.rfFit (rfTok k)
              (train_test_split (regPerm k)
                (dataPairs (table.filter fun r => r.region = rg))).1 p.1)) ∧
    ((regPerm k).Perm
        (List.range (dataPairs (table.filter fun r => r.region = rg)).length) →
      (train_test_split (regPerm k)
          (dataPairs (table.filter fun r => r.region = rg))).2.length =
        ((dataPairs (table.filter fun r => r.region = rg)).length + 4) / 5 ∧
      (train_test_split (regPerm k)
          (dataPairs (table.filter fun r => r.region = rg))).1.length =
        (dataPairs (table.filter fun r => r.region = rg)).length -
          ((dataPairs (table.filter fun r => r.region = rg)).length + 4) / 5) := by
  have hfrom : ∀ pr ∈ dataPairs (table.filter fun r => r.region = rg),
      ∃ r ∈ table, r.region = rg ∧ pr = (r.cov, r.rural_income) := by
    intro pr hpr
    rcases List.mem_map.mp hpr with ⟨r, hr, rfl⟩
    rcases List.mem_filter.mp hr with ⟨hrt, hreq⟩
    exact ⟨r, hrt, of_decide_eq_true hreq, rfl⟩
  refine ⟨fun pr hpr => hfrom pr (mem_split_train hpr),
    fun pr hpr => hfrom pr (mem_split_test hpr), ?_, ?_⟩
  · unfold regional_report
    rw [List.getElem?_map, enum_getElem, hrg]
    rfl
  · intro hperm
    set sub := dataPairs (table.filter fun r => r.region = rg) with hsub
    have hlen : (regPerm k).length = sub.length := by
      rw [hperm.length_eq, List.length_range]
    have hidx : ∀ i ∈ regPerm k, i < sub.length := fun i hi =>
      List.mem_range.mp (hperm.mem_iff.mp hi)
    have hTle : (sub.length + 4) / 5 ≤ sub.length := by omega
    constructor
    · show ((((regPerm k)).take ((sub.length + 4) / 5)).filterMap
          fun i => sub[i]?).length = (sub.length + 4) / 5
      rw [filterMap_getElem_length sub _
        fun i hi => hidx i (List.mem_of_mem_take hi)]
      rw [List.length_take, hlen]
      omega
    · show ((((regPerm k)).drop ((sub.length + 4) / 5)).filterMap
          fun i => sub[i]?).length = sub.length - (sub.length + 4) / 5
      rw [filterMap_getElem_length sub _
        fun i hi => hidx i (List.mem_of_mem_drop hi)]
      rw [List.length_drop, hlen]

/-- A fixed evaluation context with trivial library functions, used only
to instantiate theorems on concrete inputs. -/
def ctx0 : MLCtx where
  sq := fun q => q
  ridgeFit := fun _ _ => 0
  rfFit := fun _ _ _ => 0

/-- A fixed shuffle supply for the regional loop. -/
def regPerm0 : ℕ → List ℕ := fun _ => [0]

/-- A fixed random-state token supply for the forest fits. -/
def rfTok0 : ℕ → ℕ := fun _ => 0

theorem c9_witness :
    (∃ r ∈ tA, r.region = Region.Central ∧
        ((recA.cov, recA.rural_income) : (Fin 8 → ℚ) × ℚ) = (r.cov, r.rural_income)) ∧
      (train_test_split (regPerm0 0)
          (dataPairs (tA.filter fun r => r.region = Region.Central))).2.length = 1 ∧
      (train_test_split (regPerm0 0)
          (dataPairs (tA.filter fun r => r.region = Region.Central))).1.length = 0 := by
  obtain ⟨h1, h2, h3, h4⟩ := c9_regional_models ctx0 tA regPerm0 rfTok0 0
    Region.Central (by decide)
  obtain ⟨hT, hTr⟩ := h4 (by decide)
  refine ⟨h2 (recA.cov, recA.rural_income) ?_, ?_, ?_⟩
  · show (recA.cov, recA.rural_income) ∈ [((recA.cov : Fin 8 → ℚ), recA.rural_income)]
    exact List.mem_singleton.mpr rfl
  · rw [hT]
    decide
  · rw [hTr]
    decide
